import Mathlib

/-!
# Verification of the Paged Viewport Navigator (`scrollPager`)

A shallow embedding of the `scrollPager` full-page carousel and the
`throttle` rate-limiting utility from the repository's JavaScript source,
together with proofs about the navigator's state machine.

The embedding follows the source closely:

* `Config` holds the fields of the merged `config` object that influence
  index/state behaviour (`infinite`, and the original page count `n`,
  i.e. `originalPages.length`).
* `pagesLen` is `pages.length`: the clones of the first and last page are
  inserted exactly when `config.infinite && originalPages.length > 1`.
* `PagerState` carries the closure variables `currentIndex` and
  `isAnimating`.
* The internal `scrollTo(index)` is split into its synchronous prefix
  (`scrollToStart`: the `isAnimating` guard, the clamp, and setting
  `isAnimating = true`) and the continuation that runs when the
  `beforeChange` promise fulfills and the animation completes
  (`scrollToFinish`: the seamless-reset check, clearing `isAnimating`,
  and `triggerAfterChange`).  The source attaches the continuation with
  `.then(...)` and has no rejection handler, so a rejected
  `beforeChange` leaves the state exactly as `scrollToStart` left it;
  `HookOutcome` selects between the two settlements.
* `CmdResult` records, besides the new state, the arguments the
  `beforeChange` and `afterChange` callbacks were invoked with
  (`none` = the callback was not invoked for this command).
-/

structure Config where
  infinite : Bool
  /-- `originalPages.length` -/
  n : Nat
deriving DecidableEq, Repr

/-- `pages.length`: clones are added iff `config.infinite && originalPages.length > 1`. -/
def pagesLen (c : Config) : Nat :=
  if c.infinite ∧ 1 < c.n then c.n + 2 else c.n

/-- The closure state of one `scrollPager` instance. -/
structure PagerState where
  currentIndex : Nat
  isAnimating : Bool
deriving DecidableEq, Repr

/-- `let currentIndex = config.infinite ? 1 : 0;` -/
def initState (c : Config) : PagerState :=
  ⟨if c.infinite then 1 else 0, false⟩

/-- `Math.max(0, Math.min(index, pages.length - 1))`. -/
def clampIndex (c : Config) (index : Int) : Nat :=
  (max 0 (min index ((pagesLen c : Int) - 1))).toNat

/-- `getOriginalIndex(index)`: the visual-to-logical mapping. -/
def getOriginalIndex (c : Config) (index : Int) : Int :=
  if ¬ c.infinite then index
  else if index ≤ 0 then (c.n : Int) - 1
  else if (pagesLen c : Int) - 1 ≤ index then 0
  else index - 1

/-- How the `beforeChange` promise settles.  When no `beforeChange` hook is
configured the source uses `Promise.resolve()`, i.e. `fulfilled`. -/
inductive HookOutcome where
  | fulfilled
  | rejected
deriving DecidableEq, Repr

/-- Result of one entry into the navigator: the new closure state, the
arguments `beforeChange` was called with (`none` when it was not called),
and the argument `afterChange` was called with (`none` when it was not). -/
structure CmdResult where
  state : PagerState
  before : Option (Int × Int)
  after : Option Int
deriving DecidableEq, Repr

/-- The synchronous prefix of the internal `scrollTo`: the `isAnimating`
guard, then `currentIndex = Math.max(0, Math.min(index, pages.length - 1))`
and `isAnimating = true`.  This is also the state held while a pending
`beforeChange` promise has not settled. -/
def scrollToStart (c : Config) (s : PagerState) (index : Int) : PagerState :=
  if s.isAnimating then s
  else ⟨clampIndex c index, true⟩

/-- The continuation attached with `beforeChangePromise.then(...)`: the
seamless-reset check, completion of `animateScroll`, clearing
`isAnimating`, the reset teleport when the index landed on a sentinel
slot, and `triggerAfterChange`. -/
def scrollToFinish (c : Config) (s : PagerState) : PagerState × Option Int :=
  let cur : Int := s.currentIndex
  let needsReset := c.infinite ∧ 1 < pagesLen c ∧
    ((pagesLen c : Int) - 1 ≤ cur ∨ cur ≤ 0)
  if needsReset then
    let resetIndex : Nat := if (pagesLen c : Int) - 1 ≤ cur then 1 else pagesLen c - 2
    (⟨resetIndex, false⟩, some (getOriginalIndex c resetIndex))
  else
    (⟨s.currentIndex, false⟩, some (getOriginalIndex c cur))

/-- The internal `scrollTo(index)`, run until the command settles.  A call
while `isAnimating` returns immediately (no state change, no callbacks).
Otherwise the clamp and `isAnimating = true` happen synchronously and
`beforeChange(getOriginalIndex(prevIndex), getOriginalIndex(currentIndex))`
is invoked; if its promise rejects, the `.then` continuation never runs
(the source installs no rejection handler), so the state stays at the
`scrollToStart` result with `isAnimating` still `true`. -/
def runScrollTo (c : Config) (s : PagerState) (index : Int) (h : HookOutcome) :
    CmdResult :=
  if s.isAnimating then ⟨s, none, none⟩
  else
    let s1 : PagerState := ⟨clampIndex c index, true⟩
    let beforeArgs : Int × Int :=
      (getOriginalIndex c s.currentIndex, getOriginalIndex c s1.currentIndex)
    match h with
    | .rejected => ⟨s1, some beforeArgs, none⟩
    | .fulfilled => ⟨(scrollToFinish c s1).1, some beforeArgs, (scrollToFinish c s1).2⟩

/-- The public `next()`:
`scrollTo(config.infinite ? currentIndex + 1 : Math.min(currentIndex + 1, originalPages.length - 1))`. -/
def apiNext (c : Config) (s : PagerState) (h : HookOutcome) : CmdResult :=
  let nextIndex : Int :=
    if c.infinite then (s.currentIndex : Int) + 1
    else min ((s.currentIndex : Int) + 1) ((c.n : Int) - 1)
  runScrollTo c s nextIndex h

/-- The public `prev()`:
`scrollTo(config.infinite ? currentIndex - 1 : Math.max(currentIndex - 1, 0))`. -/
def apiPrev (c : Config) (s : PagerState) (h : HookOutcome) : CmdResult :=
  let prevIndex : Int :=
    if c.infinite then (s.currentIndex : Int) - 1
    else max ((s.currentIndex : Int) - 1) 0
  runScrollTo c s prevIndex h

/-- The public `scrollTo(index)`: `scrollTo(config.infinite ? index + 1 : index)`. -/
def apiScrollTo (c : Config) (s : PagerState) (index : Int) (h : HookOutcome) :
    CmdResult :=
  runScrollTo c s (if c.infinite then index + 1 else index) h

/-- The public `getCurrentIndex()`: `getOriginalIndex(currentIndex)`. -/
def apiGetCurrentIndex (c : Config) (s : PagerState) : Int :=
  getOriginalIndex c s.currentIndex

/-- `handleWheel`, with `delta` the axis delta already scaled by
`config.sensitivity` (the sensitivity is positive, so it does not change
the sign, and only the sign is used).  Guard order as in the source:
`isAnimating` first, then the non-infinite boundary check, then
`scrollTo(currentIndex + direction)`. -/
def handleWheel (c : Config) (s : PagerState) (delta : Int) (h : HookOutcome) :
    CmdResult :=
  if s.isAnimating then ⟨s, none, none⟩
  else
    let direction : Int := if 0 < delta then 1 else -1
    if ¬ c.infinite ∧ ((direction < 0 ∧ s.currentIndex = 0) ∨
        (0 < direction ∧ (s.currentIndex : Int) = (c.n : Int) - 1)) then
      ⟨s, none, none⟩
    else
      runScrollTo c s ((s.currentIndex : Int) + direction) h

/-- The gesture classifier inside `handleTouchEnd`: quick swipe
(`deltaTime < 300 && |distance| > 50`) or long drag
(`|distance| > extent / 3`, encoded without division as
`3 * |distance| > extent`); else direction `0` (discarded). -/
def touchDirection (deltaTime : Nat) (distance : Int) (extent : Nat) : Int :=
  if (deltaTime < 300 ∧ 50 < |distance|) ∨ (extent : Int) < 3 * |distance| then
    if 0 < distance then 1 else -1
  else 0

/-- `handleTouchEnd` for a gesture whose start was recorded: the
`isAnimating` guard, then classification, then
`scrollTo(currentIndex + direction)` when the direction is nonzero. -/
def handleTouchEnd (c : Config) (s : PagerState) (deltaTime : Nat)
    (distance : Int) (extent : Nat) (h : HookOutcome) : CmdResult :=
  if s.isAnimating then ⟨s, none, none⟩
  else
    let direction := touchDirection deltaTime distance extent
    if direction = 0 then ⟨s, none, none⟩
    else runScrollTo c s ((s.currentIndex : Int) + direction) h

/-- Commands that can reach the navigator, with how the `beforeChange`
promise settles for the command (irrelevant when the command is rejected). -/
inductive Cmd where
  | next (h : HookOutcome)
  | prev (h : HookOutcome)
  | goto (index : Int) (h : HookOutcome)
  | wheel (delta : Int) (h : HookOutcome)
  | touch (deltaTime : Nat) (distance : Int) (extent : Nat) (h : HookOutcome)
deriving DecidableEq, Repr

def applyCmd (c : Config) (s : PagerState) : Cmd → PagerState
  | .next h => (apiNext c s h).state
  | .prev h => (apiPrev c s h).state
  | .goto k h => (apiScrollTo c s k h).state
  | .wheel d h => (handleWheel c s d h).state
  | .touch dt dist ext h => (handleTouchEnd c s dt dist ext h).state

/-- The state after a sequence of commands from the initial state. -/
def runCmds (c : Config) (cmds : List Cmd) : PagerState :=
  cmds.foldl (applyCmd c) (initState c)

example : apiNext ⟨true, 3⟩ (initState ⟨true, 3⟩) .fulfilled =
    ⟨⟨2, false⟩, some (0, 1), some 1⟩ := by decide

example : apiNext ⟨true, 3⟩ ⟨3, false⟩ .fulfilled =
    ⟨⟨1, false⟩, some (2, 0), some 0⟩ := by decide

example : apiNext ⟨false, 3⟩ ⟨2, false⟩ .fulfilled =
    ⟨⟨2, false⟩, some (2, 2), some 2⟩ := by decide

/-!
## The `throttle` utility

`throttle(fn, time, type)` with `type = true` (immediate mode), as used for
the wheel listener (`throttle(handleWheel, config.throttleTime, true)`).
Closure state: `lastTime` (initially `0`) and `timer` (the pending
`setTimeout`, modelled as its fire time and the argument it will pass to
`fn`; `clearTimeout` replaces it).  Per the source:

* if `lastTime === 0` (immediate mode, first call), `fn` runs now and
  `lastTime := now`;
* else if `now - lastTime < delay`, the previous pending timeout is
  cleared and a new one is scheduled `delay - (now - lastTime)` from now,
  i.e. at absolute time `lastTime + delay`, carrying the current argument;
* else `fn` runs now and `lastTime := now`.

When a pending timeout fires (at `lastTime + delay`), it sets
`lastTime := Date.now()` and runs `fn` with the captured argument.

`throttleRun` replays a strictly increasing list of timestamped calls,
firing any pending timeout that becomes due strictly before the next call,
and flushing the pending timeout at the end; it returns the list of
`(time, argument)` executions of `fn`.  (A call arriving at exactly the
pending timeout's fire time is an event-ordering tie in the browser; the
statements proved below use tie-free inputs.)
-/

structure ThrottleState where
  lastTime : Nat
  timer : Option (Nat × Nat)
deriving DecidableEq, Repr

/-- Fire the pending timeout if it is due strictly before `now`. -/
def throttleFireDue (st : ThrottleState) (now : Nat) :
    ThrottleState × List (Nat × Nat) :=
  match st.timer with
  | some (fireAt, arg) =>
    if fireAt < now then (⟨fireAt, none⟩, [(fireAt, arg)])
    else (st, [])
  | none => (st, [])

/-- One invocation of the throttled function at time `now` with argument
`arg` (after due timeouts have fired). -/
def throttleCall (delay : Nat) (st : ThrottleState) (now : Nat) (arg : Nat) :
    ThrottleState × List (Nat × Nat) :=
  if st.lastTime = 0 then
    (⟨now, st.timer⟩, [(now, arg)])
  else if now - st.lastTime < delay then
    (⟨st.lastTime, some (st.lastTime + delay, arg)⟩, [])
  else
    (⟨now, st.timer⟩, [(now, arg)])

def throttleStep (delay : Nat) (st : ThrottleState) (now : Nat) (arg : Nat) :
    ThrottleState × List (Nat × Nat) :=
  let (st1, fired) := throttleFireDue st now
  let (st2, out) := throttleCall delay st1 now arg
  (st2, fired ++ out)

def throttleRunAux (delay : Nat) (st : ThrottleState) :
    List (Nat × Nat) → List (Nat × Nat)
  | [] => match st.timer with
    | some (fireAt, arg) => [(fireAt, arg)]
    | none => []
  | (now, arg) :: rest =>
    let (st1, out) := throttleStep delay st now arg
    out ++ throttleRunAux delay st1 rest

/-- Replay `calls` (strictly increasing `(time, argument)` pairs) through
the throttled function; result: the executions of the wrapped `fn`. -/
def throttleRun (delay : Nat) (calls : List (Nat × Nat)) : List (Nat × Nat) :=
  throttleRunAux delay ⟨0, none⟩ calls

example : throttleRun 800 [(1000, 1), (1100, 2)] = [(1000, 1), (1800, 2)] := by
  decide

example : throttleRun 800 [(1000, 1), (2000, 2)] = [(1000, 1), (2000, 2)] := by
  decide

/-!
## Listener registration, sentinel clones, and `destroy()`

The DOM-facing part needed by the teardown claim.  Children and listeners
are identified by tokens.  During setup the source registers, on the
container: a `wheel` listener that is an anonymous arrow function wrapping
`throttledWheel` (not `throttledWheel` itself), and the three touch
handlers; with `config.infinite` and more than one page it also inserts
`lastClone` before the first child and appends `firstClone`.

`destroy()` calls
`containerEl.removeEventListener('wheel', throttledWheel)` — a function
that was never registered — then removes the three touch listeners, and
finally, when clones were inserted, calls
`removeChild(pages[pages.length - 1])` and `removeChild(pages[0])`; the
captured `pages` array itself is never mutated.  `removeChild` on a node
that is not currently a child throws (`NotFoundError`), modelled as
`Except.error`.
-/

inductive Listener where
  | wheelWrapper
  | throttledWheel
  | touchstart
  | touchmove
  | touchend
deriving DecidableEq, Repr

inductive Child where
  | original (i : Nat)
  | lastClone
  | firstClone
deriving DecidableEq, Repr

structure DomState where
  children : List Child
  listeners : List Listener
deriving DecidableEq, Repr

/-- The container right after `scrollPager` setup for an `infinite`
configuration with `n > 1` original pages. -/
def setupDom (n : Nat) : DomState :=
  { children := Child.lastClone :: ((List.range n).map .original) ++ [Child.firstClone]
    listeners := [.wheelWrapper, .touchstart, .touchmove, .touchend] }

/-- `removeEventListener`: removing a listener that is not attached is a
silent no-op. -/
def removeEventListener (d : DomState) (l : Listener) : DomState :=
  { d with listeners := d.listeners.erase l }

/-- `removeChild`: throws when the node is not currently a child. -/
def removeChild (d : DomState) (x : Child) : Except Unit DomState :=
  if x ∈ d.children then .ok { d with children := d.children.erase x }
  else .error ()

/-- `destroy()` for an `infinite` configuration with `n > 1` (so
`pages.length > originalPages.length` holds and the clone-removal branch
runs).  `pages[pages.length - 1]` is `firstClone` and `pages[0]` is
`lastClone`, captured at setup and unchanged by earlier `destroy` calls. -/
def destroy (d : DomState) : Except Unit DomState := do
  let d := removeEventListener d .throttledWheel
  let d := removeEventListener d .touchstart
  let d := removeEventListener d .touchmove
  let d := removeEventListener d .touchend
  let d ← removeChild d .firstClone
  let d ← removeChild d .lastClone
  pure d

/-!
## Claims
-/

/-- C1: while a transition is in flight (`isAnimating` is `true`, which
includes the asynchronous gap while a pending `beforeChange` has not
settled — `scrollToStart` raises the flag synchronously before the hook
is awaited), every call to `next()`, `prev()`, or `scrollTo()`, and every
wheel- or touch-derived command, is rejected outright: the state
(`currentIndex`, i.e. the visual index and transition target) is
unchanged and neither `beforeChange` nor `afterChange` is invoked. -/
theorem busy_commands_rejected (c : Config) (s : PagerState)
    (hbusy : s.isAnimating = true) (h : HookOutcome) (k d : Int)
    (dt : Nat) (dist : Int) (ext : Nat) :
    apiNext c s h = ⟨s, none, none⟩ ∧
    apiPrev c s h = ⟨s, none, none⟩ ∧
    apiScrollTo c s k h = ⟨s, none, none⟩ ∧
    handleWheel c s d h = ⟨s, none, none⟩ ∧
    handleTouchEnd c s dt dist ext h = ⟨s, none, none⟩ ∧
    (∀ s0 : PagerState, ∀ i : Int, s0.isAnimating = false →
      (scrollToStart c s0 i).isAnimating = true) := by
  refine ⟨?_, ?_, ?_, ?_, ?_, ?_⟩
  · simp [apiNext, runScrollTo, hbusy]
  · simp [apiPrev, runScrollTo, hbusy]
  · simp [apiScrollTo, runScrollTo, hbusy]
  · simp [handleWheel, hbusy]
  · simp [handleTouchEnd, hbusy]
  · intro s0 i h0
    simp [scrollToStart, h0]

theorem busy_commands_rejected_witness :
    (⟨2, true⟩ : PagerState).isAnimating = true ∧
    (apiNext ⟨true, 3⟩ ⟨2, true⟩ .fulfilled = ⟨⟨2, true⟩, none, none⟩ ∧
     apiPrev ⟨true, 3⟩ ⟨2, true⟩ .fulfilled = ⟨⟨2, true⟩, none, none⟩ ∧
     apiScrollTo ⟨true, 3⟩ ⟨2, true⟩ 0 .fulfilled = ⟨⟨2, true⟩, none, none⟩ ∧
     handleWheel ⟨true, 3⟩ ⟨2, true⟩ 120 .fulfilled = ⟨⟨2, true⟩, none, none⟩ ∧
     handleTouchEnd ⟨true, 3⟩ ⟨2, true⟩ 100 (-80) 600 .fulfilled =
       ⟨⟨2, true⟩, none, none⟩ ∧
     (∀ s0 : PagerState, ∀ i : Int, s0.isAnimating = false →
       (scrollToStart ⟨true, 3⟩ s0 i).isAnimating = true)) :=
  ⟨rfl, busy_commands_rejected ⟨true, 3⟩ ⟨2, true⟩ rfl .fulfilled 0 120 100 (-80) 600⟩

/-- C2 (code bug): with `N = 3`, wraparound on, starting idle at logical 0,
a `next()` whose `beforeChange` promise rejects does NOT return the engine
to Idle with unchanged visual state: `currentIndex` has already been moved
from 1 to 2 when the hook is invoked, and because the source installs no
rejection handler on `beforeChangePromise.then(...)`, `isAnimating`
remains `true` forever — no `afterChange` fires (that part matches the
claim) but every subsequent command is rejected instead of being accepted
again. -/
theorem vetoed_transition_wedges_engine :
    (apiNext ⟨true, 3⟩ (initState ⟨true, 3⟩) .rejected).state.currentIndex = 2 ∧
    (initState ⟨true, 3⟩).currentIndex = 1 ∧
    (apiNext ⟨true, 3⟩ (initState ⟨true, 3⟩) .rejected).state.isAnimating = true ∧
    (apiNext ⟨true, 3⟩ (initState ⟨true, 3⟩) .rejected).after = none ∧
    apiNext ⟨true, 3⟩ (apiNext ⟨true, 3⟩ (initState ⟨true, 3⟩) .rejected).state
        .fulfilled =
      ⟨(apiNext ⟨true, 3⟩ (initState ⟨true, 3⟩) .rejected).state, none, none⟩ ∧
    apiScrollTo ⟨true, 3⟩ (apiNext ⟨true, 3⟩ (initState ⟨true, 3⟩) .rejected).state
        0 .fulfilled =
      ⟨(apiNext ⟨true, 3⟩ (initState ⟨true, 3⟩) .rejected).state, none, none⟩ := by
  decide

/-- C3, counterexample: with wraparound off and `N = 3`, the out-of-range
call `scrollTo(10)` from logical 0 is not a no-op: the logical index moves
to 2 (the clamped target) and both `beforeChange` and `afterChange` are
invoked. -/
theorem scrollTo_out_of_range_counterexample :
    apiGetCurrentIndex ⟨false, 3⟩ (initState ⟨false, 3⟩) = 0 ∧
    apiGetCurrentIndex ⟨false, 3⟩
      (apiScrollTo ⟨false, 3⟩ (initState ⟨false, 3⟩) 10 .fulfilled).state = 2 ∧
    (apiScrollTo ⟨false, 3⟩ (initState ⟨false, 3⟩) 10 .fulfilled).before ≠ none ∧
    (apiScrollTo ⟨false, 3⟩ (initState ⟨false, 3⟩) 10 .fulfilled).after ≠ none := by
  decide

/-- C3, amended: `scrollTo(logicalIndex)` performs no range validation.
While a transition is in flight the call is a silent no-op (state
unchanged, no hooks).  When idle, every `logicalIndex` — in range or not —
is accepted: the internal target (`logicalIndex + 1` with wraparound, else
`logicalIndex`) is clamped into the visual range `[0, pagesLen - 1]` and a
full transition runs, invoking `beforeChange` and `afterChange`. -/
theorem scrollTo_clamps_instead_of_validating (c : Config) (s : PagerState)
    (k : Int) :
    (s.isAnimating = true → apiScrollTo c s k .fulfilled = ⟨s, none, none⟩) ∧
    (s.isAnimating = false →
      (scrollToStart c s (if c.infinite then k + 1 else k)).currentIndex =
        clampIndex c (if c.infinite then k + 1 else k) ∧
      (apiScrollTo c s k .fulfilled).before ≠ none ∧
      (apiScrollTo c s k .fulfilled).after ≠ none) := by
  constructor
  · intro hbusy
    simp [apiScrollTo, runScrollTo, hbusy]
  · intro hidle
    have hfin : ∀ s1 : PagerState, (scrollToFinish c s1).2 ≠ none := by
      intro s1
      simp only [scrollToFinish]
      split <;> simp
    refine ⟨by simp [scrollToStart, hidle], ?_, ?_⟩
    · simp [apiScrollTo, runScrollTo, hidle]
    · simp [apiScrollTo, runScrollTo, hidle, hfin]

theorem scrollTo_clamps_instead_of_validating_witness :
    (⟨0, false⟩ : PagerState).isAnimating = false ∧
    ((scrollToStart ⟨false, 3⟩ ⟨0, false⟩
        (if (⟨false, 3⟩ : Config).infinite then (10 : Int) + 1 else 10)).currentIndex =
      clampIndex ⟨false, 3⟩
        (if (⟨false, 3⟩ : Config).infinite then (10 : Int) + 1 else 10) ∧
     (apiScrollTo ⟨false, 3⟩ ⟨0, false⟩ 10 .fulfilled).before ≠ none ∧
     (apiScrollTo ⟨false, 3⟩ ⟨0, false⟩ 10 .fulfilled).after ≠ none) :=
  ⟨rfl, (scrollTo_clamps_instead_of_validating ⟨false, 3⟩ ⟨0, false⟩ 10).2 rfl⟩

/-- C4, counterexample: `N = 3`, wraparound off.  Starting from the
initial state and completing two `next()` calls reaches logical index 2
(the last page).  A further `next()` leaves `getCurrentIndex()` at 2, but
it is not a complete no-op: `afterChange` fires (with argument 2). -/
theorem boundary_next_fires_afterChange :
    apiGetCurrentIndex ⟨false, 3⟩
      (apiNext ⟨false, 3⟩
        (apiNext ⟨false, 3⟩ (initState ⟨false, 3⟩) .fulfilled).state
        .fulfilled).state = 2 ∧
    (apiNext ⟨false, 3⟩
      (apiNext ⟨false, 3⟩
        (apiNext ⟨false, 3⟩ (initState ⟨false, 3⟩) .fulfilled).state
        .fulfilled).state .fulfilled).after ≠ none := by
  decide

/-- C4, amended: with wraparound disabled, a boundary command leaves
`getCurrentIndex()` unchanged, but it is not a complete no-op: when idle
it runs a degenerate transition to the same index, firing `beforeChange`
and `afterChange` with the unchanged logical index.  (`prev()` at logical
0, and symmetrically `next()` at logical `N - 1`.) -/
theorem boundary_command_keeps_index_but_fires_hooks (n : Nat) (hn : 1 ≤ n) :
    (apiPrev ⟨false, n⟩ ⟨0, false⟩ .fulfilled).state = ⟨0, false⟩ ∧
    (apiPrev ⟨false, n⟩ ⟨0, false⟩ .fulfilled).before = some (0, 0) ∧
    (apiPrev ⟨false, n⟩ ⟨0, false⟩ .fulfilled).after = some 0 ∧
    (apiNext ⟨false, n⟩ ⟨n - 1, false⟩ .fulfilled).state = ⟨n - 1, false⟩ ∧
    (apiNext ⟨false, n⟩ ⟨n - 1, false⟩ .fulfilled).before =
      some ((n : Int) - 1, (n : Int) - 1) ∧
    (apiNext ⟨false, n⟩ ⟨n - 1, false⟩ .fulfilled).after = some ((n : Int) - 1) := by
  have hcast : ((n - 1 : Nat) : Int) = (n : Int) - 1 := by omega
  have hplen : pagesLen ⟨false, n⟩ = n := by simp [pagesLen]
  have hclamp0 : clampIndex ⟨false, n⟩ 0 = 0 := by
    simp only [clampIndex, hplen]
    omega
  have hclampn : clampIndex ⟨false, n⟩
      (min (((n - 1 : Nat) : Int) + 1) ((n : Int) - 1)) = n - 1 := by
    simp only [clampIndex, hplen]
    omega
  have hget0 : getOriginalIndex ⟨false, n⟩ 0 = 0 := by
    simp [getOriginalIndex]
  have hgetn : getOriginalIndex ⟨false, n⟩ ((n - 1 : Nat) : Int) = (n : Int) - 1 := by
    simp [getOriginalIndex, hcast]
  have hfin0 : scrollToFinish ⟨false, n⟩ ⟨0, true⟩ = (⟨0, false⟩, some 0) := by
    simp [scrollToFinish, hget0]
  have hfinn : scrollToFinish ⟨false, n⟩ ⟨n - 1, true⟩ =
      (⟨n - 1, false⟩, some ((n : Int) - 1)) := by
    simp [scrollToFinish, hgetn]
  refine ⟨?_, ?_, ?_, ?_, ?_, ?_⟩ <;>
    simp [apiPrev, apiNext, runScrollTo, hclamp0, hclampn, hget0, hgetn,
      hfin0, hfinn]

theorem boundary_command_keeps_index_but_fires_hooks_witness :
    1 ≤ 3 ∧
    ((apiPrev ⟨false, 3⟩ ⟨0, false⟩ .fulfilled).state = ⟨0, false⟩ ∧
     (apiPrev ⟨false, 3⟩ ⟨0, false⟩ .fulfilled).before = some (0, 0) ∧
     (apiPrev ⟨false, 3⟩ ⟨0, false⟩ .fulfilled).after = some 0 ∧
     (apiNext ⟨false, 3⟩ ⟨3 - 1, false⟩ .fulfilled).state = ⟨3 - 1, false⟩ ∧
     (apiNext ⟨false, 3⟩ ⟨3 - 1, false⟩ .fulfilled).before =
       some ((3 : Int) - 1, (3 : Int) - 1) ∧
     (apiNext ⟨false, 3⟩ ⟨3 - 1, false⟩ .fulfilled).after = some ((3 : Int) - 1)) :=
  ⟨by decide, boundary_command_keeps_index_but_fires_hooks 3 (by decide)⟩

/-- C5, counterexample: two wheel events at times 1000 and 1100 with the
default 800 ms window.  The second event is not suppressed: the throttle
defers it and the wrapped handler runs a second time at 1800 (trailing
execution with the captured argument), so the burst yields two executions,
not one. -/
theorem wheel_throttle_counterexample :
    throttleRun 800 [(1000, 1), (1100, 2)] = [(1000, 1), (1800, 2)] ∧
    (throttleRun 800 [(1000, 1), (1100, 2)]).length ≠ 1 := by
  decide

/-- C5, amended: the wheel throttle (default window 800 ms) has
leading-edge-plus-trailing semantics, matching the utility's own
documentation of its immediate mode: the first event of a burst fires
immediately; subsequent events arriving within the window are deferred,
not suppressed — their timer is repeatedly replaced (`clearTimeout`), and
the last event of the burst executes once the window elapses (at
`firstEventTime + window`), so a burst yields up to two executions: one
leading, one trailing. -/
theorem throttle_leading_edge_with_trailing_execution
    (delay t s1 s2 a b e : Nat) (ht : 1 ≤ t) (hs1 : 1 ≤ s1)
    (hs12 : s1 < s2) (hsd : s2 < delay) :
    throttleRun delay [(t, a)] = [(t, a)] ∧
    throttleRun delay [(t, a), (t + s1, b)] = [(t, a), (t + delay, b)] ∧
    throttleRun delay [(t, a), (t + s1, b), (t + s2, e)] =
      [(t, a), (t + delay, e)] := by
  have h1 : ¬ t = 0 := by omega
  have h2 : t + s1 - t < delay := by omega
  have h3 : t + s2 - t < delay := by omega
  have h4 : ¬ t + delay < t + s2 := by omega
  have h5 : s1 < delay := by omega
  have h6 : s2 < delay := by omega
  have h7 : ¬ delay < s2 := by omega
  refine ⟨?_, ?_, ?_⟩ <;>
    simp [throttleRun, throttleRunAux, throttleStep, throttleFireDue,
      throttleCall, h1, h2, h3, h4, h5, h6, h7]

theorem throttle_leading_edge_with_trailing_execution_witness :
    (1 ≤ 1000 ∧ 1 ≤ 100 ∧ 100 < 200 ∧ 200 < 800) ∧
    (throttleRun 800 [(1000, 1)] = [(1000, 1)] ∧
     throttleRun 800 [(1000, 1), (1000 + 100, 2)] = [(1000, 1), (1000 + 800, 2)] ∧
     throttleRun 800 [(1000, 1), (1000 + 100, 2), (1000 + 200, 3)] =
       [(1000, 1), (1000 + 800, 3)]) :=
  ⟨by decide,
   throttle_leading_edge_with_trailing_execution 800 1000 100 200 1 2 3
     (by decide) (by decide) (by decide) (by decide)⟩

/-!
### Evaluation lemmas for the navigator state machine
-/

lemma runScrollTo_busy (c : Config) (cur : Nat) (index : Int) (h : HookOutcome) :
    runScrollTo c ⟨cur, true⟩ index h = ⟨⟨cur, true⟩, none, none⟩ := rfl

lemma runScrollTo_idle (c : Config) (cur : Nat) (index : Int) :
    runScrollTo c ⟨cur, false⟩ index .fulfilled =
      ⟨(scrollToFinish c ⟨clampIndex c index, true⟩).1,
       some (getOriginalIndex c cur, getOriginalIndex c (clampIndex c index)),
       (scrollToFinish c ⟨clampIndex c index, true⟩).2⟩ := rfl

lemma getOriginalIndex_inf (N : Nat) (idx : Int) :
    getOriginalIndex ⟨true, N⟩ idx =
      if idx ≤ 0 then (N : Int) - 1
      else if (pagesLen ⟨true, N⟩ : Int) - 1 ≤ idx then 0
      else idx - 1 := rfl

lemma scrollToFinish_eval (c : Config) (cur : Nat) :
    scrollToFinish c ⟨cur, true⟩ =
      if c.infinite = true ∧ 1 < pagesLen c ∧
          ((pagesLen c : Int) - 1 ≤ (cur : Int) ∨ (cur : Int) ≤ 0) then
        (⟨if (pagesLen c : Int) - 1 ≤ (cur : Int) then 1 else pagesLen c - 2, false⟩,
         some (getOriginalIndex c
           ((if (pagesLen c : Int) - 1 ≤ (cur : Int) then (1 : Nat)
             else pagesLen c - 2 : Nat) : Int)))
      else (⟨cur, false⟩, some (getOriginalIndex c (cur : Int))) := rfl

lemma apiNext_inf_unfold (N : Nat) (cur : Nat) :
    apiNext ⟨true, N⟩ ⟨cur, false⟩ .fulfilled =
      runScrollTo ⟨true, N⟩ ⟨cur, false⟩ ((cur : Int) + 1) .fulfilled := rfl

/-- `getOriginalIndex` on a non-sentinel slot (`1 ≤ v ≤ N`) with
wraparound: subtract one. -/
lemma getOriginalIndex_inf_mid (N v : Nat) (hN : 1 < N) (hv1 : 1 ≤ v)
    (hv2 : v ≤ N) : getOriginalIndex ⟨true, N⟩ v = (v : Int) - 1 := by
  have hplen : pagesLen ⟨true, N⟩ = N + 2 := by simp [pagesLen, hN]
  rw [getOriginalIndex_inf, if_neg (by omega),
    if_neg (by rw [hplen]; push_cast; omega)]

/-- One completed `next()` from a non-final real slot (`1 ≤ m ≤ N - 1`)
with wraparound: move to slot `m + 1`, report logical `m`. -/
lemma apiNext_inf_step (N m : Nat) (hN : 1 < N) (hm : 1 ≤ m)
    (hm2 : m ≤ N - 1) :
    apiNext ⟨true, N⟩ ⟨m, false⟩ .fulfilled =
      ⟨⟨m + 1, false⟩, some ((m : Int) - 1, m), some m⟩ := by
  have hplen : pagesLen ⟨true, N⟩ = N + 2 := by simp [pagesLen, hN]
  have hclamp : clampIndex ⟨true, N⟩ ((m : Int) + 1) = m + 1 := by
    simp only [clampIndex, hplen]
    omega
  have hgm : getOriginalIndex ⟨true, N⟩ (m : Int) = (m : Int) - 1 :=
    getOriginalIndex_inf_mid N m hN hm (by omega)
  have hgm1 : getOriginalIndex ⟨true, N⟩ ((m + 1 : Nat) : Int) = (m : Int) := by
    rw [getOriginalIndex_inf_mid N (m + 1) hN (by omega) (by omega)]
    push_cast
    ring
  have hfin : scrollToFinish ⟨true, N⟩ ⟨m + 1, true⟩ =
      (⟨m + 1, false⟩, some (m : Int)) := by
    rw [scrollToFinish_eval,
      if_neg (by rw [hplen]; push_cast; omega), hgm1]
  rw [apiNext_inf_unfold, runScrollTo_idle, hclamp, hfin, hgm, hgm1]

/-- One completed `next()` from the final real slot `N` with wraparound:
the animation lands on the sentinel slot `N + 1`, the seamless reset
teleports to slot `1`, and `afterChange` reports logical `0`. -/
lemma apiNext_inf_wrap (N : Nat) (hN : 1 < N) :
    apiNext ⟨true, N⟩ ⟨N, false⟩ .fulfilled =
      ⟨⟨1, false⟩, some ((N : Int) - 1, 0), some 0⟩ := by
  have hplen : pagesLen ⟨true, N⟩ = N + 2 := by simp [pagesLen, hN]
  have hclamp : clampIndex ⟨true, N⟩ ((N : Int) + 1) = N + 1 := by
    simp only [clampIndex, hplen]
    omega
  have hgN : getOriginalIndex ⟨true, N⟩ (N : Int) = (N : Int) - 1 :=
    getOriginalIndex_inf_mid N N hN (by omega) (by omega)
  have hgN1 : getOriginalIndex ⟨true, N⟩ ((N + 1 : Nat) : Int) = 0 := by
    rw [getOriginalIndex_inf, if_neg (by omega),
      if_pos (by rw [hplen]; push_cast; omega)]
  have hg1 : getOriginalIndex ⟨true, N⟩ ((1 : Nat) : Int) = 0 := by
    rw [getOriginalIndex_inf_mid N 1 hN (by omega) (by omega)]
    simp
  have hfin : scrollToFinish ⟨true, N⟩ ⟨N + 1, true⟩ = (⟨1, false⟩, some 0) := by
    rw [scrollToFinish_eval,
      if_pos ⟨rfl, by rw [hplen]; omega,
        Or.inl (by rw [hplen]; push_cast; omega)⟩,
      if_pos (by rw [hplen]; push_cast; omega), hg1]
  rw [apiNext_inf_unfold, runScrollTo_idle, hclamp, hfin, hgN, hgN1]

/-- `next()` completed `k` times from the initial state (each
`beforeChange` fulfilled, each transition awaited), collecting the
successive `afterChange` arguments. -/
def nextN (c : Config) : Nat → PagerState × List Int
  | 0 => (initState c, [])
  | k + 1 =>
    let p := nextN c k
    let r := apiNext c p.1 .fulfilled
    (r.state, p.2 ++ r.after.toList)

lemma nextN_mid (N k : Nat) (hN : 1 < N) (hk : k ≤ N - 1) :
    nextN ⟨true, N⟩ k =
      (⟨k + 1, false⟩, (List.range k).map (fun i => (i : Int) + 1)) := by
  induction k with
  | zero => simp [nextN, initState]
  | succ j ih =>
    have hj : j ≤ N - 1 := by omega
    have hstep := apiNext_inf_step N (j + 1) hN (by omega) (by omega)
    simp only [nextN, ih hj, hstep, List.range_succ, List.map_append]
    refine Prod.ext rfl ?_
    push_cast
    simp

/-- C6: for every `N > 1` with wraparound enabled, starting at logical
index 0 (the initial state) and completing `next()` exactly `N` times
(each transition awaited, each `beforeChange` fulfilled) returns to
logical index 0, with the visual sequence length `N + 2` throughout (the
pages list is fixed at construction and never modified by navigation);
the logical sequence observed by `afterChange` is `1, 2, …, N-1, 0` — in
particular `1, 2, 0` for `N = 3`. -/
theorem next_N_times_wraps_to_start (N : Nat) (hN : 1 < N) :
    pagesLen ⟨true, N⟩ = N + 2 ∧
    (nextN ⟨true, N⟩ N).1 = ⟨1, false⟩ ∧
    apiGetCurrentIndex ⟨true, N⟩ (nextN ⟨true, N⟩ N).1 = 0 ∧
    (nextN ⟨true, N⟩ N).2 =
      (List.range (N - 1)).map (fun i => (i : Int) + 1) ++ [0] := by
  obtain ⟨M, rfl⟩ : ∃ M, N = M + 2 := ⟨N - 2, by omega⟩
  have hplen : pagesLen ⟨true, M + 2⟩ = M + 2 + 2 := by simp [pagesLen, hN]
  have hmid := nextN_mid (M + 2) (M + 1) hN (by omega)
  have hwrap := apiNext_inf_wrap (M + 2) hN
  have hg1 : apiGetCurrentIndex ⟨true, M + 2⟩ ⟨1, false⟩ = 0 := by
    show getOriginalIndex ⟨true, M + 2⟩ ((1 : Nat) : Int) = 0
    rw [getOriginalIndex_inf_mid (M + 2) 1 hN (by omega) (by omega)]
    simp
  have hsplit : nextN ⟨true, M + 2⟩ (M + 2) =
      ((apiNext ⟨true, M + 2⟩ (nextN ⟨true, M + 2⟩ (M + 1)).1 .fulfilled).state,
       (nextN ⟨true, M + 2⟩ (M + 1)).2 ++
         (apiNext ⟨true, M + 2⟩ (nextN ⟨true, M + 2⟩ (M + 1)).1
           .fulfilled).after.toList) := rfl
  rw [hsplit, hmid]
  have hcur : ((⟨M + 1 + 1, false⟩ : PagerState)) = ⟨M + 2, false⟩ := rfl
  rw [hcur, hwrap]
  refine ⟨hplen, rfl, hg1, ?_⟩
  have hrange : M + 2 - 1 = (M + 1) := by omega
  rw [hrange]
  simp

theorem next_N_times_wraps_to_start_witness :
    1 < 3 ∧
    (pagesLen ⟨true, 3⟩ = 3 + 2 ∧
     (nextN ⟨true, 3⟩ 3).1 = ⟨1, false⟩ ∧
     apiGetCurrentIndex ⟨true, 3⟩ (nextN ⟨true, 3⟩ 3).1 = 0 ∧
     (nextN ⟨true, 3⟩ 3).2 =
       (List.range (3 - 1)).map (fun i => (i : Int) + 1) ++ [0]) :=
  ⟨by decide, next_N_times_wraps_to_start 3 (by decide)⟩

/-- The visual index seeded by the facade's `scrollTo(index)`:
`config.infinite ? index + 1 : index`. -/
def toVisualSeed (c : Config) (k : Int) : Int :=
  if c.infinite then k + 1 else k

/-- C7: round-trip of the index mappings — for every valid logical index
`k` (`0 ≤ k < N`), `toLogical (toVisualSeed k) = k`, where `toLogical` is
`getOriginalIndex` and `toVisualSeed` is the facade's seed. -/
theorem toLogical_toVisualSeed_roundtrip (c : Config) (k : Nat)
    (hn : 1 ≤ c.n) (hk : k < c.n) :
    getOriginalIndex c (toVisualSeed c k) = k := by
  obtain ⟨inf, n⟩ := c
  dsimp only at hn hk
  cases inf
  · simp [toVisualSeed, getOriginalIndex]
  · by_cases h1 : 1 < n
    · rw [show toVisualSeed ⟨true, n⟩ (k : Int) = (k : Int) + 1 from rfl,
        show ((k : Int) + 1) = ((k + 1 : Nat) : Int) from by push_cast; ring,
        getOriginalIndex_inf_mid n (k + 1) h1 (by omega) (by omega)]
      push_cast
      ring
    · have hn1 : n = 1 := by omega
      have hk0 : k = 0 := by omega
      subst hn1
      subst hk0
      decide

theorem toLogical_toVisualSeed_roundtrip_witness :
    (1 ≤ (⟨true, 3⟩ : Config).n ∧ 2 < (⟨true, 3⟩ : Config).n) ∧
    getOriginalIndex ⟨true, 3⟩ (toVisualSeed ⟨true, 3⟩ 2) = 2 :=
  ⟨⟨by decide, by decide⟩,
   toLogical_toVisualSeed_roundtrip ⟨true, 3⟩ 2 (by decide) (by decide)⟩

/-!
### Reachable-state invariants
-/

lemma clampIndex_lt (c : Config) (i : Int) (hp : 1 ≤ pagesLen c) :
    clampIndex c i < pagesLen c := by
  simp only [clampIndex]
  omega

lemma scrollToFinish_state_lt (c : Config) (s : PagerState)
    (hs : s.currentIndex < pagesLen c) :
    (scrollToFinish c s).1.currentIndex < pagesLen c := by
  simp only [scrollToFinish]
  split_ifs with hc hc2
  · rcases hc with ⟨-, h2, -⟩
    exact h2
  · show pagesLen c - 2 < pagesLen c
    omega
  · exact hs

lemma runScrollTo_state_lt (c : Config) (s : PagerState) (i : Int)
    (h : HookOutcome) (hp : 1 ≤ pagesLen c)
    (hs : s.currentIndex < pagesLen c) :
    (runScrollTo c s i h).state.currentIndex < pagesLen c := by
  unfold runScrollTo
  split
  · exact hs
  · cases h
    · exact scrollToFinish_state_lt c _ (clampIndex_lt c i hp)
    · exact clampIndex_lt c i hp

lemma applyCmd_lt (c : Config) (s : PagerState) (cmd : Cmd)
    (hp : 1 ≤ pagesLen c) (hs : s.currentIndex < pagesLen c) :
    (applyCmd c s cmd).currentIndex < pagesLen c := by
  cases cmd with
  | next h => exact runScrollTo_state_lt c s _ h hp hs
  | prev h => exact runScrollTo_state_lt c s _ h hp hs
  | goto k h => exact runScrollTo_state_lt c s _ h hp hs
  | wheel d h =>
    simp only [applyCmd, handleWheel]
    split_ifs <;>
      first
      | exact hs
      | exact runScrollTo_state_lt c s _ h hp hs
  | touch dt dist ext h =>
    simp only [applyCmd, handleTouchEnd]
    split_ifs <;>
      first
      | exact hs
      | exact runScrollTo_state_lt c s _ h hp hs

lemma foldl_applyCmd_lt (c : Config) (hp : 1 ≤ pagesLen c) :
    ∀ (cmds : List Cmd) (s : PagerState), s.currentIndex < pagesLen c →
      (cmds.foldl (applyCmd c) s).currentIndex < pagesLen c
  | [], _, hs => hs
  | cmd :: rest, s, hs =>
    foldl_applyCmd_lt c hp rest _ (applyCmd_lt c s cmd hp hs)

/-- C8, counterexample: with wraparound enabled and `N = 1` the invariant
fails in the initial state — no clones are inserted (the clone branch
requires `originalPages.length > 1`), so the visual sequence has length 1,
yet `currentIndex` is initialized to `config.infinite ? 1 : 0 = 1`, which
is not a valid offset. -/
theorem initial_visualIndex_out_of_range :
    pagesLen ⟨true, 1⟩ = 1 ∧
    (initState ⟨true, 1⟩).currentIndex = 1 ∧
    ¬ (initState ⟨true, 1⟩).currentIndex < pagesLen ⟨true, 1⟩ := by
  decide

/-- C8, amended: for every `N ≥ 1`, provided wraparound is disabled or
`N > 1`, every reachable state (the initial state and any sequence of
commands, whatever their hook outcomes) has `visualIndex` a valid offset
into the visual sequence, whose length is `N + 2` exactly when wraparound
is enabled and `N > 1`, and `N` otherwise.  (With wraparound enabled and
`N = 1` the initial state violates the invariant, as the counterexample
shows; the first accepted command clamps the index back into range.) -/
theorem visualIndex_invariant (c : Config) (cmds : List Cmd)
    (hn : 1 ≤ c.n) (hinf : c.infinite = true → 1 < c.n) :
    (pagesLen c = if c.infinite ∧ 1 < c.n then c.n + 2 else c.n) ∧
    (runCmds c cmds).currentIndex < pagesLen c := by
  have hp : 1 ≤ pagesLen c := by
    simp only [pagesLen]
    split_ifs <;> omega
  have hinit : (initState c).currentIndex < pagesLen c := by
    obtain ⟨inf, n⟩ := c
    dsimp only at hn hinf
    cases inf
    · show (0 : Nat) < pagesLen ⟨false, n⟩
      have hpn : pagesLen ⟨false, n⟩ = n := by simp [pagesLen]
      omega
    · have h1 := hinf rfl
      have hp2 : pagesLen ⟨true, n⟩ = n + 2 := by simp [pagesLen, h1]
      show (1 : Nat) < pagesLen ⟨true, n⟩
      omega
  exact ⟨rfl, foldl_applyCmd_lt c hp cmds _ hinit⟩

theorem visualIndex_invariant_witness :
    (1 ≤ (⟨true, 3⟩ : Config).n ∧
     ((⟨true, 3⟩ : Config).infinite = true → 1 < (⟨true, 3⟩ : Config).n)) ∧
    ((pagesLen ⟨true, 3⟩ =
        if (⟨true, 3⟩ : Config).infinite ∧ 1 < (⟨true, 3⟩ : Config).n then
          (⟨true, 3⟩ : Config).n + 2 else (⟨true, 3⟩ : Config).n) ∧
     (runCmds ⟨true, 3⟩ [.next .fulfilled, .wheel 120 .rejected,
        .goto 0 .fulfilled]).currentIndex < pagesLen ⟨true, 3⟩) :=
  ⟨⟨by decide, fun _ => by decide⟩,
   visualIndex_invariant ⟨true, 3⟩
     [.next .fulfilled, .wheel 120 .rejected, .goto 0 .fulfilled]
     (by decide) (fun _ => by decide)⟩

/-- C9 (code bug): for an `infinite` pager with `N = 3`, `destroy()` is
neither listener-complete nor idempotent.  The first call removes both
sentinel clones (restoring the original children) and the three touch
listeners, but the `wheel` listener stays attached: the registered
listener is the anonymous wrapper, while `removeEventListener` is passed
`throttledWheel`, which was never registered.  A second `destroy()` call
reaches `removeChild(pages[pages.length - 1])` with the captured clone
node that is no longer a child of the container and throws
(`NotFoundError`) instead of making no further change. -/
theorem destroy_leaks_wheel_listener_and_throws_on_second_call :
    destroy (setupDom 3) =
      .ok ⟨(List.range 3).map .original, [.wheelWrapper]⟩ ∧
    (⟨(List.range 3).map .original, [.wheelWrapper]⟩ : DomState).listeners ≠
      [] ∧
    destroy ⟨(List.range 3).map .original, [.wheelWrapper]⟩ = .error () := by
  refine ⟨rfl, by simp, rfl⟩

/-- `getOriginalIndex` with wraparound is total with range `0..N-1`: any
integer visual index at or beyond a sentinel slot is clamped (`≤ 0` maps
to `N - 1`, at or past the far sentinel maps to `0`), and interior slots
map to `index - 1`. -/
lemma getOriginalIndex_inf_range (N : Nat) (hN : 1 ≤ N) (v : Int) :
    0 ≤ getOriginalIndex ⟨true, N⟩ v ∧ getOriginalIndex ⟨true, N⟩ v < N := by
  by_cases h1 : 1 < N
  · have hp : pagesLen ⟨true, N⟩ = N + 2 := by simp [pagesLen, h1]
    rw [getOriginalIndex_inf, hp]
    split_ifs <;> omega
  · have hN1 : N = 1 := by omega
    subst hN1
    have hp : pagesLen ⟨true, 1⟩ = 1 := by simp [pagesLen]
    rw [getOriginalIndex_inf, hp]
    split_ifs <;> omega

/-- C10: for every `N ≥ 1` and every reachable state (any command
sequence from the initial state, whatever the hook outcomes — including
states resting on a sentinel slot), `getCurrentIndex()` returns a logical
index in `0..N-1`; moreover with wraparound enabled the visual-to-logical
mapping is total: it clamps every integer visual index into `0..N-1`. -/
theorem getCurrentIndex_always_in_range (c : Config) (cmds : List Cmd)
    (hn : 1 ≤ c.n) :
    (0 ≤ apiGetCurrentIndex c (runCmds c cmds) ∧
     apiGetCurrentIndex c (runCmds c cmds) < c.n) ∧
    (c.infinite = true → ∀ v : Int,
      0 ≤ getOriginalIndex c v ∧ getOriginalIndex c v < c.n) := by
  obtain ⟨inf, n⟩ := c
  dsimp only at hn ⊢
  cases inf
  · have hpn : pagesLen ⟨false, n⟩ = n := by simp [pagesLen]
    have hinit : (initState ⟨false, n⟩).currentIndex < pagesLen ⟨false, n⟩ := by
      show (0 : Nat) < pagesLen ⟨false, n⟩
      omega
    have hlt : (runCmds ⟨false, n⟩ cmds).currentIndex < n := by
      have h := foldl_applyCmd_lt ⟨false, n⟩ (by omega) cmds _ hinit
      rw [hpn] at h
      exact h
    constructor
    · show 0 ≤ getOriginalIndex ⟨false, n⟩ (runCmds ⟨false, n⟩ cmds).currentIndex ∧
        getOriginalIndex ⟨false, n⟩ (runCmds ⟨false, n⟩ cmds).currentIndex < n
      have hid : getOriginalIndex ⟨false, n⟩
          (runCmds ⟨false, n⟩ cmds).currentIndex =
          ((runCmds ⟨false, n⟩ cmds).currentIndex : Int) := rfl
      rw [hid]
      omega
    · intro hcon
      exact absurd hcon (by simp)
  · refine ⟨getOriginalIndex_inf_range n hn _, fun _ v => ?_⟩
    exact getOriginalIndex_inf_range n hn v

theorem getCurrentIndex_always_in_range_witness :
    1 ≤ (⟨true, 1⟩ : Config).n ∧
    ((0 ≤ apiGetCurrentIndex ⟨true, 1⟩
        (runCmds ⟨true, 1⟩ [.prev .fulfilled, .next .rejected]) ∧
      apiGetCurrentIndex ⟨true, 1⟩
        (runCmds ⟨true, 1⟩ [.prev .fulfilled, .next .rejected]) <
        (⟨true, 1⟩ : Config).n) ∧
     ((⟨true, 1⟩ : Config).infinite = true → ∀ v : Int,
       0 ≤ getOriginalIndex ⟨true, 1⟩ v ∧
       getOriginalIndex ⟨true, 1⟩ v < (⟨true, 1⟩ : Config).n)) :=
  ⟨by decide,
   getCurrentIndex_always_in_range ⟨true, 1⟩
     [.prev .fulfilled, .next .rejected] (by decide)⟩
